import Mathlib

/-!
# Verification of the Zebra Block Heap (syzygy)

A shallow embedding of `syzygy/agent/asan/heaps/zebra_block_heap.h`.
The repository ships only the class declaration (`zebra_block_heap.h`);
the method bodies (`zebra_block_heap.cc`) are not part of the sources, so
every operation below is modelled from the specification (spec.md), with
the header file's own documentation comments taken as authoritative where
they speak (slab layout, the possible gap between the body and the odd
page, push/pop result tags, the invalid-index sentinels).

Addresses are modelled as `Nat`, the quarantine ratio as `ℚ` (the source
stores a `float`; rationals give the exact arithmetic the spec describes
with its floor bound).  The recursive heap lock serializes every public
operation, so the concurrent system is modelled as a sequential transition
system over the locked state.
-/

namespace Syzygy

/-- The system page size used throughout the spec (spec.md §8: 4096). -/
def kPageSize : Nat := 4096

/-- The size of a 2-page slab (`zebra_block_heap.h` line 73: 2 * kPageSize). -/
def kSlabSize : Nat := 2 * kPageSize

/-- The shadow-memory alignment every block body must satisfy
(spec.md §4.2: a fixed small power of two; §8 scenarios: 8). -/
def kShadowRatio : Nat := 8

/-- Modelled from the spec: the maximum raw allocation size.  The header
(lines 76-78) says anything bigger always fails `Allocate`; spec.md §3 fixes
it to `page_size`. -/
def kMaximumAllocationSize : Nat := kPageSize

/-- Modelled from the spec: the maximum block-body size, derived from the
placement constraints — at least one 16-byte header (two shadow-ratio
chunks) must precede the body in the even page (spec.md §3, §4.2). -/
def kMaximumBlockAllocationSize : Nat := kPageSize - 2 * kShadowRatio

/-- Modelled from the spec: the compact block descriptor kept for a slab
that is not Free, "recording the header start, body start, body size, and
total block size" (spec.md §3). -/
structure CompactBlockInfo where
  header : Nat
  body : Nat
  body_size : Nat
  block_size : Nat
  deriving DecidableEq

/-- The state of one slab together with its descriptor.  Modelled from the
spec (spec.md §3): state ∈ {Free, Allocated, Quarantined} and, when not
Free, a compact block descriptor (the source keeps `SlabState` plus a
`CompactBlockInfo` field in `SlabInfo`, header lines 142-154). -/
inductive SlabEntry where
  | freeSlab
  | allocatedSlab (info : CompactBlockInfo)
  | quarantinedSlab (info : CompactBlockInfo)
  deriving DecidableEq

/-- Whether a slab entry is in the Quarantined state. -/
def SlabEntry.isQuarantined : SlabEntry → Bool
  | .quarantinedSlab _ => true
  | _ => false

/-- Whether a slab entry is in the Allocated state. -/
def SlabEntry.isAllocated : SlabEntry → Bool
  | .allocatedSlab _ => true
  | _ => false

/-- The descriptor stored for a slab (junk default for a Free slab, which
stores none; spec.md §3). -/
def SlabEntry.storedInfo : SlabEntry → CompactBlockInfo
  | .freeSlab => ⟨0, 0, 0, 0⟩
  | .allocatedSlab info => info
  | .quarantinedSlab info => info

/-- The trim status carried by a push result (header lines 118-122: a
successful push always returns SYNC_TRIM_REQUIRED). -/
inductive TrimStatus where
  | TRIM_NOT_REQUIRED
  | SYNC_TRIM_REQUIRED
  deriving DecidableEq

/-- Result of a quarantine push (spec.md §6: `{SyncTrimRequired | Rejected}`). -/
structure PushResult where
  push_successful : Bool
  trim_status : TrimStatus
  deriving DecidableEq

/-- The color tag carried by a pop result (header lines 118-122: a pop
always returns the GREEN color). -/
inductive TrimColor where
  | GREEN
  deriving DecidableEq

/-- The locked state of a `ZebraBlockHeap` (header lines 178-209): the
reservation parameters, the quarantine ratio, the two index queues and the
slab table.  Queues are FIFO lists: the head is the front. -/
structure ZebraBlockHeap where
  heap_address : Nat
  heap_size : Nat
  slab_count : Nat
  quarantine_ratio : ℚ
  free_slabs : List Nat
  quarantine : List Nat
  slab_info : List SlabEntry
  deriving DecidableEq

namespace ZebraBlockHeap

/-- The slab entry at index `i` (`slab_info_[i]`; out-of-range reads give
the harmless Free default, which no well-formed execution performs). -/
def entryAt (h : ZebraBlockHeap) (i : Nat) : SlabEntry :=
  h.slab_info.getD i .freeSlab

/-- Modelled from the spec: the constructor.  `heap_size` is rounded down
to a multiple of the slab size, every slab starts Free, and the free queue
holds `0 .. slab_count-1` in ascending order (spec.md §3, §4.1; the missing
`zebra_block_heap.cc` constructor). -/
def initHeap (requested_size heap_address : Nat) (r : ℚ) : ZebraBlockHeap :=
  let slab_count := requested_size / kSlabSize
  { heap_address := heap_address
    heap_size := slab_count * kSlabSize
    slab_count := slab_count
    quarantine_ratio := r
    free_slabs := List.range slab_count
    quarantine := []
    slab_info := List.replicate slab_count .freeSlab }

/-- Modelled from the spec: `GetSlabIndex` (header lines 164-168) maps an
address inside the reservation to its 0-based slab index; the source's
`kInvalidSlabIndex` sentinel is modelled as `none`. -/
def GetSlabIndex (h : ZebraBlockHeap) (address : Nat) : Option Nat :=
  if h.heap_address ≤ address ∧ address < h.heap_address + h.heap_size then
    some ((address - h.heap_address) / kSlabSize)
  else
    none

/-- Modelled from the spec: `GetSlabAddress` (header lines 170-173) maps a
valid slab index to its address and an invalid index to NULL (`none`). -/
def GetSlabAddress (h : ZebraBlockHeap) (index : Nat) : Option Nat :=
  if index < h.slab_count then
    some (h.heap_address + index * kSlabSize)
  else
    none

/-- Modelled from the spec: the raw allocation path.  Pops the front free
slab and places the buffer flush against the slab's odd page:
`ptr + bytes = address_of(i) + page_size` (spec.md §4.2; the missing
`AllocateImpl`/`Allocate` of `zebra_block_heap.cc`). -/
def Allocate (h : ZebraBlockHeap) (bytes : Nat) :
    Option Nat × ZebraBlockHeap :=
  if kMaximumAllocationSize < bytes then (none, h)
  else
    match h.free_slabs with
    | [] => (none, h)
    | i :: rest =>
      let alloc := h.heap_address + i * kSlabSize + kPageSize - bytes
      (some alloc,
       { h with
           free_slabs := rest
           slab_info := h.slab_info.set i
             (.allocatedSlab ⟨alloc, alloc, bytes, bytes⟩) })

/-- Modelled from the spec and the header's layout comment (header lines
57-61): the body is pushed as far right in the even page as its
`kShadowRatio` alignment allows, so it starts at the largest multiple of
`kShadowRatio` that is at most `page_size - size` from the slab start. -/
def blockBodyOffset (size : Nat) : Nat :=
  kShadowRatio * ((kPageSize - size) / kShadowRatio)

/-- Modelled from the spec: `AllocateBlock` (spec.md §4.2; the missing
`zebra_block_heap.cc` body).  The block starts at the slab start, the body
is `kShadowRatio`-aligned and ends within `kShadowRatio` bytes of the odd
page (the gap covered by trailer padding, header lines 57-67), the trailer
lives in the odd page.  Fails on oversize bodies, on redzone requests the
layout cannot honour, and when no free slab exists.  Returns the body
pointer and the stored descriptor. -/
def AllocateBlock (h : ZebraBlockHeap)
    (size min_left_redzone_size min_right_redzone_size : Nat) :
    Option (Nat × CompactBlockInfo) × ZebraBlockHeap :=
  if kMaximumBlockAllocationSize < size then (none, h)
  else if blockBodyOffset size < min_left_redzone_size then (none, h)
  else if kPageSize < min_right_redzone_size then (none, h)
  else
    match h.free_slabs with
    | [] => (none, h)
    | i :: rest =>
      let slab_address := h.heap_address + i * kSlabSize
      let body := slab_address + blockBodyOffset size
      let info : CompactBlockInfo :=
        { header := slab_address
          body := body
          body_size := size
          block_size := kSlabSize }
      (some (body, info),
       { h with
           free_slabs := rest
           slab_info := h.slab_info.set i (.allocatedSlab info) })

/-- Modelled from the spec: the raw free path.  Succeeds only on the exact
address recorded for a currently Allocated slab; the slab returns to the
back of the free queue (spec.md §4.3; header line 69: freeing a
quarantined address is invalid). -/
def Free (h : ZebraBlockHeap) (alloc : Nat) : Bool × ZebraBlockHeap :=
  match GetSlabIndex h alloc with
  | none => (false, h)
  | some i =>
    match h.entryAt i with
    | .allocatedSlab info =>
      if info.header = alloc then
        (true,
         { h with
             slab_info := h.slab_info.set i .freeSlab
             free_slabs := h.free_slabs ++ [i] })
      else (false, h)
    | _ => (false, h)

/-- Modelled from the spec: `FreeBlock` (spec.md §4.3).  Succeeds only
when the given descriptor matches the one stored for a currently Allocated
slab; the slab becomes Free and joins the back of the free queue. -/
def FreeBlock (h : ZebraBlockHeap) (block_info : CompactBlockInfo) :
    Bool × ZebraBlockHeap :=
  match GetSlabIndex h block_info.header with
  | none => (false, h)
  | some i =>
    match h.entryAt i with
    | .allocatedSlab info =>
      if info = block_info then
        (true,
         { h with
             slab_info := h.slab_info.set i .freeSlab
             free_slabs := h.free_slabs ++ [i] })
      else (false, h)
    | _ => (false, h)

/-- Modelled from the spec: quarantine `Push` (spec.md §4.4).  Verifies the
descriptor identifies an Allocated slab, transitions it to Quarantined,
enqueues the index, and signals the synchronous-trim policy with
SYNC_TRIM_REQUIRED (header lines 118-124); otherwise rejects without
mutation. -/
def Push (h : ZebraBlockHeap) (info : CompactBlockInfo) :
    PushResult × ZebraBlockHeap :=
  match GetSlabIndex h info.header with
  | none => (⟨false, .TRIM_NOT_REQUIRED⟩, h)
  | some i =>
    match h.entryAt i with
    | .allocatedSlab stored =>
      if stored = info then
        (⟨true, .SYNC_TRIM_REQUIRED⟩,
         { h with
             quarantine := h.quarantine ++ [i]
             slab_info := h.slab_info.set i (.quarantinedSlab info) })
      else (⟨false, .TRIM_NOT_REQUIRED⟩, h)
    | _ => (⟨false, .TRIM_NOT_REQUIRED⟩, h)

/-- Modelled from the spec: quarantine `Pop` (spec.md §4.4).  Removes the
head of the quarantine FIFO, transitions that slab to Free (back of the
free queue), and returns its descriptor with the GREEN color (header lines
118-125); on an empty quarantine returns an empty result. -/
def Pop (h : ZebraBlockHeap) :
    Option (CompactBlockInfo × TrimColor) × ZebraBlockHeap :=
  match h.quarantine with
  | [] => (none, h)
  | i :: rest =>
    (some ((h.entryAt i).storedInfo, .GREEN),
     { h with
         quarantine := rest
         slab_info := h.slab_info.set i .freeSlab
         free_slabs := h.free_slabs ++ [i] })

/-- Sets every index of `q` to Free in the slab table (used by `Empty`). -/
def emptySlabs (q : List Nat) (s : List SlabEntry) : List SlabEntry :=
  q.foldl (fun acc i => acc.set i .freeSlab) s

/-- Modelled from the spec: quarantine `Empty` (spec.md §4.4).  Drains the
quarantine in FIFO order, transitions every drained slab to Free, and
returns their descriptors. -/
def Empty (h : ZebraBlockHeap) :
    List CompactBlockInfo × ZebraBlockHeap :=
  (h.quarantine.map (fun i => (h.entryAt i).storedInfo),
   { h with
       quarantine := []
       slab_info := emptySlabs h.quarantine h.slab_info
       free_slabs := h.free_slabs ++ h.quarantine })

/-- Modelled from the spec: `IsAllocated` (spec.md §4.1) is true iff the
address equals the exact header address recorded for a slab currently in
state Allocated. -/
def IsAllocated (h : ZebraBlockHeap) (alloc : Nat) : Bool :=
  match GetSlabIndex h alloc with
  | none => false
  | some i =>
    match h.entryAt i with
    | .allocatedSlab info => info.header = alloc
    | _ => false

/-- Modelled from the spec: `set_quarantine_ratio` updates the ratio under
the lock and performs no trimming itself (spec.md §4.4). -/
def set_quarantine_ratio (h : ZebraBlockHeap) (r : ℚ) : ZebraBlockHeap :=
  { h with quarantine_ratio := r }

/-- Modelled from the spec: the quarantine ratio invariant checked by the
source's `QuarantineInvariantIsSatisfied` (header lines 160-162), with the
spec's floor bound (spec.md §4.4, §8): the quarantined bytes are at most
`⌊r * heap_size⌋`. -/
def QuarantineInvariantIsSatisfied (h : ZebraBlockHeap) : Prop :=
  (kSlabSize * h.quarantine.length : ℤ) ≤
    ⌊h.quarantine_ratio * (h.heap_size : ℚ)⌋

instance (h : ZebraBlockHeap) : Decidable (QuarantineInvariantIsSatisfied h) := by
  unfold QuarantineInvariantIsSatisfied
  infer_instance

end ZebraBlockHeap

/-- One public mutating operation of the heap (spec.md §6), as serialized
by the recursive heap lock. -/
inductive HeapOp where
  | allocate (bytes : Nat)
  | free (alloc : Nat)
  | allocateBlock (size lmin rmin : Nat)
  | freeBlock (info : CompactBlockInfo)
  | push (info : CompactBlockInfo)
  | pop
  | empty
  | setRatio (r : ℚ)

namespace ZebraBlockHeap

/-- The state transition of one public operation (discarding the result). -/
def step (h : ZebraBlockHeap) : HeapOp → ZebraBlockHeap
  | .allocate bytes => (h.Allocate bytes).2
  | .free alloc => (h.Free alloc).2
  | .allocateBlock size lmin rmin => (h.AllocateBlock size lmin rmin).2
  | .freeBlock info => (h.FreeBlock info).2
  | .push info => (h.Push info).2
  | .pop => (h.Pop).2
  | .empty => (h.Empty).2
  | .setRatio r => h.set_quarantine_ratio r

/-- Runs a sequence of public operations from a state. -/
def runOps (h : ZebraBlockHeap) : List HeapOp → ZebraBlockHeap
  | [] => h
  | op :: ops => runOps (h.step op) ops

/-- Whether the descriptor header stored for slab `i` (if any) lies inside
slab `i` (spec.md §3: the descriptor's range lies in the slab). -/
def headerOk (h : ZebraBlockHeap) (i : Nat) : Bool :=
  match h.entryAt i with
  | .freeSlab => true
  | .allocatedSlab info =>
      decide (h.heap_address + i * kSlabSize ≤ info.header ∧
              info.header < h.heap_address + i * kSlabSize + kSlabSize)
  | .quarantinedSlab info =>
      decide (h.heap_address + i * kSlabSize ≤ info.header ∧
              info.header < h.heap_address + i * kSlabSize + kSlabSize)

/-- The structural invariants of the heap state (spec.md §3): the reserved
size is exactly `slab_count` slabs, the slab table has one entry per slab,
both queues hold valid indices without duplicates, the free queue holds
exactly the Free indices, the quarantine queue exactly the Quarantined
indices, and every stored descriptor's header lies inside its slab. -/
structure WellFormed (h : ZebraBlockHeap) : Prop where
  size_eq : h.heap_size = h.slab_count * kSlabSize
  info_len : h.slab_info.length = h.slab_count
  free_lt : ∀ i ∈ h.free_slabs, i < h.slab_count
  quar_lt : ∀ i ∈ h.quarantine, i < h.slab_count
  free_nodup : h.free_slabs.Nodup
  quar_nodup : h.quarantine.Nodup
  free_char : ∀ i < h.slab_count,
    (i ∈ h.free_slabs ↔ h.entryAt i = .freeSlab)
  quar_char : ∀ i < h.slab_count,
    (i ∈ h.quarantine ↔ (h.entryAt i).isQuarantined = true)
  header_ok : ∀ i < h.slab_count, h.headerOk i = true

end ZebraBlockHeap

/-! ## List bookkeeping lemmas -/

theorem getD_oob {α : Type} (l : List α) (i : Nat) (d : α)
    (hi : l.length ≤ i) : l.getD i d = d := by
  induction l generalizing i with
  | nil => simp [List.getD]
  | cons x xs ih =>
    cases i with
    | zero => simp at hi
    | succ n => simpa using ih n (by simpa using hi)

theorem getD_set_eq_ite {α : Type} (l : List α) (i j : Nat) (e d : α)
    (hi : i < l.length) :
    (l.set i e).getD j d = if j = i then e else l.getD j d := by
  induction l generalizing i j with
  | nil => simp at hi
  | cons x xs ih =>
    cases i with
    | zero =>
      cases j with
      | zero => simp
      | succ m => simp
    | succ n =>
      cases j with
      | zero => simp
      | succ m =>
        simpa using ih n m (by simpa using hi)

theorem set_getD_self {α : Type} (l : List α) (i : Nat) (d : α)
    (hi : i < l.length) : l.set i (l.getD i d) = l := by
  induction l generalizing i with
  | nil => simp at hi
  | cons x xs ih =>
    cases i with
    | zero => rfl
    | succ n => simpa using ih n (by simpa using hi)

theorem getD_replicate_self {α : Type} (n i : Nat) (a : α) :
    (List.replicate n a).getD i a = a := by
  induction n generalizing i with
  | zero => simp [List.getD]
  | succ m ih =>
    cases i with
    | zero => simp [List.replicate]
    | succ k =>
      rw [List.replicate]
      simp only [List.getD_cons_succ]
      exact ih k

namespace ZebraBlockHeap

/-- Setting a slab entry to Free, read back with the Free default, needs no
bound on the index. -/
theorem getD_set_free (s : List SlabEntry) (a j : Nat) :
    (s.set a .freeSlab).getD j .freeSlab =
      if j = a then .freeSlab else s.getD j .freeSlab := by
  by_cases ha : a < s.length
  · rw [getD_set_eq_ite s a j .freeSlab .freeSlab ha]
  · rw [List.set_eq_of_length_le (by omega)]
    by_cases hj : j = a
    · subst hj
      rw [getD_oob s j .freeSlab (by omega), if_pos rfl]
    · rw [if_neg hj]

theorem emptySlabs_getD (q : List Nat) (s : List SlabEntry) (j : Nat) :
    (emptySlabs q s).getD j .freeSlab =
      if j ∈ q then .freeSlab else s.getD j .freeSlab := by
  induction q generalizing s with
  | nil => simp [emptySlabs]
  | cons a q ih =>
    have hstep : emptySlabs (a :: q) s = emptySlabs q (s.set a .freeSlab) := rfl
    rw [hstep, ih (s.set a .freeSlab), getD_set_free s a j]
    by_cases hq : j ∈ q
    · simp [hq]
    · by_cases hja : j = a
      · simp [hq, hja]
      · simp [hq, hja]

theorem emptySlabs_length (q : List Nat) (s : List SlabEntry) :
    (emptySlabs q s).length = s.length := by
  induction q generalizing s with
  | nil => rfl
  | cons a q ih =>
    have hstep : emptySlabs (a :: q) s = emptySlabs q (s.set a .freeSlab) := rfl
    rw [hstep, ih (s.set a .freeSlab), List.length_set]

/-! ## Invariant preservation -/

/-- A slab drawn from the free queue is Free. -/
theorem entry_of_mem_free {h : ZebraBlockHeap} (hwf : WellFormed h) {i : Nat}
    (hi : i ∈ h.free_slabs) : h.entryAt i = .freeSlab :=
  (hwf.free_char i (hwf.free_lt i hi)).mp hi

/-- A slab drawn from the quarantine queue is Quarantined. -/
theorem entry_of_mem_quar {h : ZebraBlockHeap} (hwf : WellFormed h) {i : Nat}
    (hi : i ∈ h.quarantine) : (h.entryAt i).isQuarantined = true :=
  (hwf.quar_char i (hwf.quar_lt i hi)).mp hi

/-- `headerOk` unfolded to a propositional statement about the entry. -/
theorem headerOk_iff (h : ZebraBlockHeap) (i : Nat) :
    h.headerOk i = true ↔
      ∀ inf : CompactBlockInfo,
        (h.entryAt i = .allocatedSlab inf ∨ h.entryAt i = .quarantinedSlab inf) →
        h.heap_address + i * kSlabSize ≤ inf.header ∧
        inf.header < h.heap_address + i * kSlabSize + kSlabSize := by
  unfold headerOk
  cases hent : h.entryAt i with
  | freeSlab =>
    simp only [hent]
    constructor
    · intro _ inf hcase
      rcases hcase with hc | hc <;> exact absurd hc (by simp)
    · intro _; trivial
  | allocatedSlab inf =>
    simp only [hent, decide_eq_true_eq]
    constructor
    · intro hb inf2 hcase
      rcases hcase with hc | hc
      · injection hc with h2; subst h2; exact hb
      · exact absurd hc (by simp)
    · intro hall; exact hall inf (Or.inl rfl)
  | quarantinedSlab inf =>
    simp only [hent, decide_eq_true_eq]
    constructor
    · intro hb inf2 hcase
      rcases hcase with hc | hc
      · exact absurd hc (by simp)
      · injection hc with h2; subst h2; exact hb
    · intro hall; exact hall inf (Or.inr rfl)

/-- Allocating the front free slab preserves the invariants, provided the
recorded header lies inside the slab. -/
theorem wf_alloc {h : ZebraBlockHeap} {i : Nat} {rest : List Nat}
    {inf : CompactBlockInfo} (hwf : WellFormed h) (hfs : h.free_slabs = i :: rest)
    (hlo : h.heap_address + i * kSlabSize ≤ inf.header)
    (hhi : inf.header < h.heap_address + i * kSlabSize + kSlabSize) :
    WellFormed { h with free_slabs := rest,
                        slab_info := h.slab_info.set i (.allocatedSlab inf) } := by
  have hisc : i < h.slab_count :=
    hwf.free_lt i (by rw [hfs]; exact List.mem_cons_self i rest)
  have hilen : i < h.slab_info.length := by rw [hwf.info_len]; exact hisc
  have hnd := hwf.free_nodup
  rw [hfs, List.nodup_cons] at hnd
  have hiq : i ∉ h.quarantine := by
    intro hmem
    have := entry_of_mem_quar hwf hmem
    rw [entry_of_mem_free hwf (by rw [hfs]; exact List.mem_cons_self i rest)] at this
    simp [SlabEntry.isQuarantined] at this
  refine ⟨hwf.size_eq, ?_, ?_, hwf.quar_lt, hnd.2, hwf.quar_nodup, ?_, ?_, ?_⟩
  · simpa [List.length_set] using hwf.info_len
  · intro j hj
    exact hwf.free_lt j (by rw [hfs]; exact List.mem_cons_of_mem _ hj)
  · intro j hj
    show j ∈ rest ↔ (h.slab_info.set i (.allocatedSlab inf)).getD j .freeSlab = .freeSlab
    rw [getD_set_eq_ite _ _ _ _ _ hilen]
    by_cases hji : j = i
    · subst hji
      simp only [if_pos rfl]
      constructor
      · intro hmem; exact absurd hmem hnd.1
      · intro hcontra; exact absurd hcontra (by simp)
    · rw [if_neg hji]
      have := hwf.free_char j hj
      rw [hfs] at this
      simp only [List.mem_cons, hji, false_or] at this
      exact this
  · intro j hj
    show j ∈ h.quarantine ↔
      ((h.slab_info.set i (.allocatedSlab inf)).getD j .freeSlab).isQuarantined = true
    rw [getD_set_eq_ite _ _ _ _ _ hilen]
    by_cases hji : j = i
    · subst hji
      simp only [if_pos rfl]
      constructor
      · intro hmem; exact absurd hmem hiq
      · intro hcontra; simp [SlabEntry.isQuarantined] at hcontra
    · rw [if_neg hji]
      exact hwf.quar_char j hj
  · intro j hj
    rw [headerOk_iff]
    intro inf2 hcase
    by_cases hji : j = i
    · subst hji
      rw [show ZebraBlockHeap.entryAt
            { h with free_slabs := rest,
                     slab_info := h.slab_info.set j (.allocatedSlab inf) } j =
            .allocatedSlab inf from by
          show (h.slab_info.set j (.allocatedSlab inf)).getD j .freeSlab = _
          rw [getD_set_eq_ite _ _ _ _ _ hilen, if_pos rfl]] at hcase
      rcases hcase with hc | hc
      · injection hc with h2; subst h2; exact ⟨hlo, hhi⟩
      · exact absurd hc (by simp)
    · rw [show ZebraBlockHeap.entryAt
            { h with free_slabs := rest,
                     slab_info := h.slab_info.set i (.allocatedSlab inf) } j =
            h.entryAt j from by
          show (h.slab_info.set i (.allocatedSlab inf)).getD j .freeSlab = _
          rw [getD_set_eq_ite _ _ _ _ _ hilen, if_neg hji]; rfl] at hcase
      exact (headerOk_iff h j).mp (hwf.header_ok j hj) inf2 hcase

/-- An entry that is not Free has an in-range index: out-of-range reads
default to Free. -/
theorem lt_of_entry_ne_free {h : ZebraBlockHeap} {i : Nat}
    (hne : h.entryAt i ≠ .freeSlab) : i < h.slab_info.length := by
  by_contra hge
  exact hne (getD_oob _ _ _ (by omega))

/-- Releasing an Allocated slab to the back of the free queue preserves
the invariants (the `Free`/`FreeBlock` success path). -/
theorem wf_release {h : ZebraBlockHeap} {i : Nat} {inf : CompactBlockInfo}
    (hwf : WellFormed h) (hent : h.entryAt i = .allocatedSlab inf) :
    WellFormed { h with slab_info := h.slab_info.set i .freeSlab,
                        free_slabs := h.free_slabs ++ [i] } := by
  have hilen : i < h.slab_info.length :=
    lt_of_entry_ne_free (by rw [hent]; simp)
  have hisc : i < h.slab_count := by rw [← hwf.info_len]; exact hilen
  have hif : i ∉ h.free_slabs := by
    intro hmem
    rw [entry_of_mem_free hwf hmem] at hent
    exact absurd hent (by simp)
  have hiq : i ∉ h.quarantine := by
    intro hmem
    have := entry_of_mem_quar hwf hmem
    rw [hent] at this
    simp [SlabEntry.isQuarantined] at this
  refine ⟨hwf.size_eq, ?_, ?_, hwf.quar_lt, ?_, hwf.quar_nodup, ?_, ?_, ?_⟩
  · simpa [List.length_set] using hwf.info_len
  · intro j hj
    rcases List.mem_append.mp hj with hj | hj
    · exact hwf.free_lt j hj
    · rw [List.mem_singleton] at hj; subst hj; exact hisc
  · rw [List.nodup_append]
    refine ⟨hwf.free_nodup, List.nodup_singleton i, ?_⟩
    intro a ha hb
    rw [List.mem_singleton] at hb
    subst hb
    exact hif ha
  · intro j hj
    show j ∈ h.free_slabs ++ [i] ↔
      (h.slab_info.set i .freeSlab).getD j .freeSlab = .freeSlab
    rw [getD_set_free, List.mem_append, List.mem_singleton]
    by_cases hji : j = i
    · simp [hji]
    · simp only [hji, or_false, if_neg hji]
      exact hwf.free_char j hj
  · intro j hj
    show j ∈ h.quarantine ↔
      ((h.slab_info.set i .freeSlab).getD j .freeSlab).isQuarantined = true
    rw [getD_set_free]
    by_cases hji : j = i
    · subst hji
      simp only [if_pos rfl]
      constructor
      · intro hmem; exact absurd hmem hiq
      · intro hc; simp [SlabEntry.isQuarantined] at hc
    · rw [if_neg hji]
      exact hwf.quar_char j hj
  · intro j hj
    rw [headerOk_iff]
    intro inf2 hcase
    rw [show ZebraBlockHeap.entryAt
          { h with slab_info := h.slab_info.set i .freeSlab,
                   free_slabs := h.free_slabs ++ [i] } j =
          (if j = i then .freeSlab else h.entryAt j) from getD_set_free _ _ _] at hcase
    by_cases hji : j = i
    · rw [if_pos hji] at hcase
      rcases hcase with hc | hc <;> exact absurd hc (by simp)
    · rw [if_neg hji] at hcase
      exact (headerOk_iff h j).mp (hwf.header_ok j hj) inf2 hcase

/-- Quarantining an Allocated slab (the `Push` success path) preserves the
invariants. -/
theorem wf_push {h : ZebraBlockHeap} {i : Nat} {inf : CompactBlockInfo}
    (hwf : WellFormed h) (hent : h.entryAt i = .allocatedSlab inf) :
    WellFormed { h with quarantine := h.quarantine ++ [i],
                        slab_info := h.slab_info.set i (.quarantinedSlab inf) } := by
  have hilen : i < h.slab_info.length :=
    lt_of_entry_ne_free (by rw [hent]; simp)
  have hisc : i < h.slab_count := by rw [← hwf.info_len]; exact hilen
  have hif : i ∉ h.free_slabs := by
    intro hmem
    rw [entry_of_mem_free hwf hmem] at hent
    exact absurd hent (by simp)
  have hiq : i ∉ h.quarantine := by
    intro hmem
    have := entry_of_mem_quar hwf hmem
    rw [hent] at this
    simp [SlabEntry.isQuarantined] at this
  refine ⟨hwf.size_eq, ?_, hwf.free_lt, ?_, hwf.free_nodup, ?_, ?_, ?_, ?_⟩
  · simpa [List.length_set] using hwf.info_len
  · intro j hj
    rcases List.mem_append.mp hj with hj | hj
    · exact hwf.quar_lt j hj
    · rw [List.mem_singleton] at hj; subst hj; exact hisc
  · rw [List.nodup_append]
    refine ⟨hwf.quar_nodup, List.nodup_singleton i, ?_⟩
    intro a ha hb
    rw [List.mem_singleton] at hb
    subst hb
    exact hiq ha
  · intro j hj
    show j ∈ h.free_slabs ↔
      (h.slab_info.set i (.quarantinedSlab inf)).getD j .freeSlab = .freeSlab
    rw [getD_set_eq_ite _ _ _ _ _ hilen]
    by_cases hji : j = i
    · subst hji
      simp only [if_pos rfl]
      constructor
      · intro hmem; exact absurd hmem hif
      · intro hc; exact absurd hc (by simp)
    · rw [if_neg hji]
      exact hwf.free_char j hj
  · intro j hj
    show j ∈ h.quarantine ++ [i] ↔
      ((h.slab_info.set i (.quarantinedSlab inf)).getD j .freeSlab).isQuarantined = true
    rw [getD_set_eq_ite _ _ _ _ _ hilen, List.mem_append, List.mem_singleton]
    by_cases hji : j = i
    · simp [hji, SlabEntry.isQuarantined]
    · simp only [hji, or_false, if_neg hji]
      exact hwf.quar_char j hj
  · intro j hj
    rw [headerOk_iff]
    intro inf2 hcase
    by_cases hji : j = i
    · subst hji
      rw [show ZebraBlockHeap.entryAt
            { h with quarantine := h.quarantine ++ [j],
                     slab_info := h.slab_info.set j (.quarantinedSlab inf) } j =
            .quarantinedSlab inf from by
          show (h.slab_info.set j (.quarantinedSlab inf)).getD j .freeSlab = _
          rw [getD_set_eq_ite _ _ _ _ _ hilen, if_pos rfl]] at hcase
      rcases hcase with hc | hc
      · exact absurd hc (by simp)
      · injection hc with h2
        subst h2
        exact (headerOk_iff h j).mp (hwf.header_ok j hj) inf (Or.inl hent)
    · rw [show ZebraBlockHeap.entryAt
            { h with quarantine := h.quarantine ++ [i],
                     slab_info := h.slab_info.set i (.quarantinedSlab inf) } j =
            h.entryAt j from by
          show (h.slab_info.set i (.quarantinedSlab inf)).getD j .freeSlab = _
          rw [getD_set_eq_ite _ _ _ _ _ hilen, if_neg hji]; rfl] at hcase
      exact (headerOk_iff h j).mp (hwf.header_ok j hj) inf2 hcase

/-- Trimming the quarantine head back to the free queue (the `Pop` success
path) preserves the invariants. -/
theorem wf_pop {h : ZebraBlockHeap} {i : Nat} {rest : List Nat}
    (hwf : WellFormed h) (hq : h.quarantine = i :: rest) :
    WellFormed { h with quarantine := rest,
                        slab_info := h.slab_info.set i .freeSlab,
                        free_slabs := h.free_slabs ++ [i] } := by
  have himem : i ∈ h.quarantine := by rw [hq]; exact List.mem_cons_self i rest
  have hisc : i < h.slab_count := hwf.quar_lt i himem
  have hquar := entry_of_mem_quar hwf himem
  have hif : i ∉ h.free_slabs := by
    intro hmem
    rw [entry_of_mem_free hwf hmem] at hquar
    simp [SlabEntry.isQuarantined] at hquar
  have hnd := hwf.quar_nodup
  rw [hq, List.nodup_cons] at hnd
  refine ⟨hwf.size_eq, ?_, ?_, ?_, ?_, hnd.2, ?_, ?_, ?_⟩
  · simpa [List.length_set] using hwf.info_len
  · intro j hj
    rcases List.mem_append.mp hj with hj | hj
    · exact hwf.free_lt j hj
    · rw [List.mem_singleton] at hj; subst hj; exact hisc
  · intro j hj
    exact hwf.quar_lt j (by rw [hq]; exact List.mem_cons_of_mem _ hj)
  · rw [List.nodup_append]
    refine ⟨hwf.free_nodup, List.nodup_singleton i, ?_⟩
    intro a ha hb
    rw [List.mem_singleton] at hb
    subst hb
    exact hif ha
  · intro j hj
    show j ∈ h.free_slabs ++ [i] ↔
      (h.slab_info.set i .freeSlab).getD j .freeSlab = .freeSlab
    rw [getD_set_free, List.mem_append, List.mem_singleton]
    by_cases hji : j = i
    · simp [hji]
    · simp only [hji, or_false, if_neg hji]
      exact hwf.free_char j hj
  · intro j hj
    show j ∈ rest ↔
      ((h.slab_info.set i .freeSlab).getD j .freeSlab).isQuarantined = true
    rw [getD_set_free]
    by_cases hji : j = i
    · subst hji
      simp only [if_pos rfl]
      constructor
      · intro hmem; exact absurd hmem hnd.1
      · intro hc; simp [SlabEntry.isQuarantined] at hc
    · rw [if_neg hji]
      have := hwf.quar_char j hj
      rw [hq] at this
      simp only [List.mem_cons, hji, false_or] at this
      exact this
  · intro j hj
    rw [headerOk_iff]
    intro inf2 hcase
    rw [show ZebraBlockHeap.entryAt
          { h with quarantine := rest,
                   slab_info := h.slab_info.set i .freeSlab,
                   free_slabs := h.free_slabs ++ [i] } j =
          (if j = i then .freeSlab else h.entryAt j) from getD_set_free _ _ _] at hcase
    by_cases hji : j = i
    · rw [if_pos hji] at hcase
      rcases hcase with hc | hc <;> exact absurd hc (by simp)
    · rw [if_neg hji] at hcase
      exact (headerOk_iff h j).mp (hwf.header_ok j hj) inf2 hcase

/-- Draining the whole quarantine to the free queue (the `Empty` path)
preserves the invariants. -/
theorem wf_empty {h : ZebraBlockHeap} (hwf : WellFormed h) :
    WellFormed { h with quarantine := [],
                        slab_info := emptySlabs h.quarantine h.slab_info,
                        free_slabs := h.free_slabs ++ h.quarantine } := by
  have hdisj : ∀ a ∈ h.free_slabs, a ∉ h.quarantine := by
    intro a ha hq
    have := entry_of_mem_quar hwf hq
    rw [entry_of_mem_free hwf ha] at this
    simp [SlabEntry.isQuarantined] at this
  refine ⟨hwf.size_eq, ?_, ?_, ?_, ?_, List.nodup_nil, ?_, ?_, ?_⟩
  · show (emptySlabs h.quarantine h.slab_info).length = h.slab_count
    rw [emptySlabs_length]
    exact hwf.info_len
  · intro j hj
    rcases List.mem_append.mp hj with hj | hj
    · exact hwf.free_lt j hj
    · exact hwf.quar_lt j hj
  · intro j hj
    exact absurd hj (List.not_mem_nil j)
  · rw [List.nodup_append]
    exact ⟨hwf.free_nodup, hwf.quar_nodup, hdisj⟩
  · intro j hj
    show j ∈ h.free_slabs ++ h.quarantine ↔
      (emptySlabs h.quarantine h.slab_info).getD j .freeSlab = .freeSlab
    rw [emptySlabs_getD, List.mem_append]
    by_cases hq : j ∈ h.quarantine
    · simp [hq]
    · simp only [hq, or_false, if_neg hq]
      exact hwf.free_char j hj
  · intro j hj
    show j ∈ ([] : List Nat) ↔
      ((emptySlabs h.quarantine h.slab_info).getD j .freeSlab).isQuarantined = true
    rw [emptySlabs_getD]
    by_cases hq : j ∈ h.quarantine
    · simp [hq, SlabEntry.isQuarantined]
    · rw [if_neg hq]
      simp only [List.not_mem_nil, false_iff]
      intro hc
      exact hq ((hwf.quar_char j hj).mpr hc)
  · intro j hj
    rw [headerOk_iff]
    intro inf2 hcase
    rw [show ZebraBlockHeap.entryAt
          { h with quarantine := [],
                   slab_info := emptySlabs h.quarantine h.slab_info,
                   free_slabs := h.free_slabs ++ h.quarantine } j =
          (if j ∈ h.quarantine then .freeSlab else h.entryAt j) from
        emptySlabs_getD _ _ _] at hcase
    by_cases hq : j ∈ h.quarantine
    · rw [if_pos hq] at hcase
      rcases hcase with hc | hc <;> exact absurd hc (by simp)
    · rw [if_neg hq] at hcase
      exact (headerOk_iff h j).mp (hwf.header_ok j hj) inf2 hcase

/-- The freshly constructed heap is well formed (spec.md §3, §4.1). -/
theorem wf_init (requested_size heap_address : Nat) (r : ℚ) :
    WellFormed (initHeap requested_size heap_address r) := by
  refine ⟨rfl, ?_, ?_, ?_, List.nodup_range _, List.nodup_nil, ?_, ?_, ?_⟩
  · exact List.length_replicate _ _
  · intro j hj
    exact List.mem_range.mp hj
  · intro j hj
    exact absurd hj (List.not_mem_nil j)
  · intro j hj
    have hj2 : j < requested_size / kSlabSize := hj
    show j ∈ List.range _ ↔
      (List.replicate _ SlabEntry.freeSlab).getD j .freeSlab = .freeSlab
    rw [getD_replicate_self]
    simp [List.mem_range, hj2]
  · intro j hj
    show j ∈ ([] : List Nat) ↔
      ((List.replicate _ SlabEntry.freeSlab).getD j .freeSlab).isQuarantined = true
    rw [getD_replicate_self]
    simp [SlabEntry.isQuarantined]
  · intro j hj
    rw [headerOk_iff]
    intro inf hcase
    rw [show (initHeap requested_size heap_address r).entryAt j = .freeSlab from
          getD_replicate_self _ _ _] at hcase
    rcases hcase with hc | hc <;> exact absurd hc (by simp)

/-- Every public operation preserves the invariants (spec.md §3: the
invariants hold after any completed public operation). -/
theorem wf_step {h : ZebraBlockHeap} (hwf : WellFormed h) (op : HeapOp) :
    WellFormed (h.step op) := by
  have hpos : 0 < kPageSize := by decide
  have hslab : kSlabSize = 2 * kPageSize := rfl
  cases op with
  | allocate bytes =>
    show WellFormed (h.Allocate bytes).2
    unfold Allocate
    by_cases hb : kMaximumAllocationSize < bytes
    · rw [if_pos hb]
      exact hwf
    · rw [if_neg hb]
      have hble : bytes ≤ kPageSize := Nat.le_of_not_lt hb
      cases hfs : h.free_slabs with
      | nil => exact hwf
      | cons i rest =>
        refine wf_alloc hwf hfs ?_ ?_
        · show h.heap_address + i * kSlabSize ≤
            h.heap_address + i * kSlabSize + kPageSize - bytes
          omega
        · show h.heap_address + i * kSlabSize + kPageSize - bytes <
            h.heap_address + i * kSlabSize + kSlabSize
          omega
  | free alloc =>
    show WellFormed (h.Free alloc).2
    unfold Free
    split
    · exact hwf
    · split
      · next inf hent =>
        split
        · exact wf_release hwf hent
        · exact hwf
      · exact hwf
  | allocateBlock size lmin rmin =>
    show WellFormed (h.AllocateBlock size lmin rmin).2
    unfold AllocateBlock
    by_cases h1 : kMaximumBlockAllocationSize < size
    · rw [if_pos h1]; exact hwf
    · rw [if_neg h1]
      by_cases h2 : blockBodyOffset size < lmin
      · rw [if_pos h2]; exact hwf
      · rw [if_neg h2]
        by_cases h3 : kPageSize < rmin
        · rw [if_pos h3]; exact hwf
        · rw [if_neg h3]
          cases hfs : h.free_slabs with
          | nil => exact hwf
          | cons i rest =>
            refine wf_alloc hwf hfs (Nat.le_refl _) ?_
            show h.heap_address + i * kSlabSize <
              h.heap_address + i * kSlabSize + kSlabSize
            omega
  | freeBlock info =>
    show WellFormed (h.FreeBlock info).2
    unfold FreeBlock
    split
    · exact hwf
    · split
      · next inf hent =>
        split
        · exact wf_release hwf hent
        · exact hwf
      · exact hwf
  | push info =>
    show WellFormed (h.Push info).2
    unfold Push
    split
    · exact hwf
    · split
      · next inf hent =>
        split
        · next hinf =>
          subst hinf
          exact wf_push hwf hent
        · exact hwf
      · exact hwf
  | pop =>
    show WellFormed (h.Pop).2
    unfold Pop
    cases hq : h.quarantine with
    | nil => exact hwf
    | cons i rest => exact wf_pop hwf hq
  | empty =>
    show WellFormed (h.Empty).2
    exact wf_empty hwf
  | setRatio r =>
    exact ⟨hwf.size_eq, hwf.info_len, hwf.free_lt, hwf.quar_lt, hwf.free_nodup,
           hwf.quar_nodup, hwf.free_char, hwf.quar_char, hwf.header_ok⟩

/-- The invariants hold after any sequence of public operations. -/
theorem wf_runOps {h : ZebraBlockHeap} (hwf : WellFormed h) (ops : List HeapOp) :
    WellFormed (h.runOps ops) := by
  induction ops generalizing h with
  | nil => exact hwf
  | cons op ops ih => exact ih (wf_step hwf op)

/-! ## Operation evaluation lemmas -/

/-- An address outside the reservation maps to the invalid sentinel. -/
theorem GetSlabIndex_eq_none {h : ZebraBlockHeap} {addr : Nat}
    (hout : addr < h.heap_address ∨ h.heap_address + h.heap_size ≤ addr) :
    h.GetSlabIndex addr = none := by
  unfold GetSlabIndex
  rw [if_neg]
  intro hc
  rcases hc with ⟨h1, h2⟩
  rcases hout with hout | hout <;> omega

/-- Evaluation of a successful raw `Allocate`. -/
theorem Allocate_spec {h : ZebraBlockHeap} {bytes i : Nat} {rest : List Nat}
    (hb : bytes ≤ kMaximumAllocationSize) (hfs : h.free_slabs = i :: rest) :
    h.Allocate bytes =
      (some (h.heap_address + i * kSlabSize + kPageSize - bytes),
       { h with free_slabs := rest,
                slab_info := h.slab_info.set i (.allocatedSlab
                  ⟨h.heap_address + i * kSlabSize + kPageSize - bytes,
                   h.heap_address + i * kSlabSize + kPageSize - bytes,
                   bytes, bytes⟩) }) := by
  unfold Allocate
  rw [if_neg (Nat.not_lt.mpr hb), hfs]

/-- Evaluation of a successful `AllocateBlock`. -/
theorem AllocateBlock_spec {h : ZebraBlockHeap} {size lmin rmin i : Nat}
    {rest : List Nat}
    (h1 : size ≤ kMaximumBlockAllocationSize) (h2 : lmin ≤ blockBodyOffset size)
    (h3 : rmin ≤ kPageSize) (hfs : h.free_slabs = i :: rest) :
    h.AllocateBlock size lmin rmin =
      (some (h.heap_address + i * kSlabSize + blockBodyOffset size,
             ⟨h.heap_address + i * kSlabSize,
              h.heap_address + i * kSlabSize + blockBodyOffset size,
              size, kSlabSize⟩),
       { h with free_slabs := rest,
                slab_info := h.slab_info.set i (.allocatedSlab
                  ⟨h.heap_address + i * kSlabSize,
                   h.heap_address + i * kSlabSize + blockBodyOffset size,
                   size, kSlabSize⟩) }) := by
  unfold AllocateBlock
  rw [if_neg (Nat.not_lt.mpr h1), if_neg (Nat.not_lt.mpr h2),
      if_neg (Nat.not_lt.mpr h3), hfs]

/-- Evaluation of `Pop` on a non-empty quarantine. -/
theorem Pop_spec {h : ZebraBlockHeap} {i : Nat} {rest : List Nat}
    (hq : h.quarantine = i :: rest) :
    h.Pop = (some ((h.entryAt i).storedInfo, .GREEN),
             { h with quarantine := rest,
                      slab_info := h.slab_info.set i .freeSlab,
                      free_slabs := h.free_slabs ++ [i] }) := by
  unfold Pop
  rw [hq]

/-- Evaluation of `Pop` on an empty quarantine. -/
theorem Pop_empty {h : ZebraBlockHeap} (hq : h.quarantine = []) :
    h.Pop = (none, h) := by
  unfold Pop
  rw [hq]

/-- Evaluation of a successful `Push`. -/
theorem Push_spec {h : ZebraBlockHeap} {i : Nat} {info : CompactBlockInfo}
    (hidx : h.GetSlabIndex info.header = some i)
    (hent : h.entryAt i = .allocatedSlab info) :
    h.Push info = (⟨true, .SYNC_TRIM_REQUIRED⟩,
                   { h with quarantine := h.quarantine ++ [i],
                            slab_info := h.slab_info.set i (.quarantinedSlab info) }) := by
  unfold Push
  split
  · next heq =>
    rw [hidx] at heq
    cases heq
  · next j heq =>
    rw [hidx] at heq
    injection heq with heq
    subst heq
    split
    · next inf hent2 =>
      rw [hent] at hent2
      injection hent2 with hent2
      subst hent2
      rw [if_pos rfl]
    · next hne =>
      exact absurd hent (by intro hc; exact hne info hc)

/-- Evaluation of a successful `FreeBlock`. -/
theorem FreeBlock_spec {h : ZebraBlockHeap} {i : Nat} {info : CompactBlockInfo}
    (hidx : h.GetSlabIndex info.header = some i)
    (hent : h.entryAt i = .allocatedSlab info) :
    h.FreeBlock info = (true, { h with slab_info := h.slab_info.set i .freeSlab,
                                       free_slabs := h.free_slabs ++ [i] }) := by
  unfold FreeBlock
  split
  · next heq =>
    rw [hidx] at heq
    cases heq
  · next j heq =>
    rw [hidx] at heq
    injection heq with heq
    subst heq
    split
    · next inf hent2 =>
      rw [hent] at hent2
      injection hent2 with hent2
      subst hent2
      rw [if_pos rfl]
    · next hne =>
      exact absurd hent (by intro hc; exact hne info hc)

/-- `FreeBlock` on an out-of-range address fails without mutation. -/
theorem FreeBlock_invalid {h : ZebraBlockHeap} {info : CompactBlockInfo}
    (hidx : h.GetSlabIndex info.header = none) :
    h.FreeBlock info = (false, h) := by
  unfold FreeBlock
  split
  · rfl
  · next j heq =>
    rw [hidx] at heq
    cases heq

/-- `Free` on an out-of-range address fails without mutation. -/
theorem Free_invalid {h : ZebraBlockHeap} {alloc : Nat}
    (hidx : h.GetSlabIndex alloc = none) :
    h.Free alloc = (false, h) := by
  unfold Free
  split
  · rfl
  · next j heq =>
    rw [hidx] at heq
    cases heq

/-- `Push` with an out-of-range address is rejected without mutation. -/
theorem Push_invalid {h : ZebraBlockHeap} {info : CompactBlockInfo}
    (hidx : h.GetSlabIndex info.header = none) :
    h.Push info = (⟨false, .TRIM_NOT_REQUIRED⟩, h) := by
  unfold Push
  split
  · rfl
  · next j heq =>
    rw [hidx] at heq
    cases heq

/-- `FreeBlock` on a slab that is not Allocated fails without mutation. -/
theorem FreeBlock_wrong_state {h : ZebraBlockHeap} {i : Nat}
    {info : CompactBlockInfo} (hidx : h.GetSlabIndex info.header = some i)
    (hst : (h.entryAt i).isAllocated = false) :
    h.FreeBlock info = (false, h) := by
  unfold FreeBlock
  split
  · rfl
  · next j heq =>
    rw [hidx] at heq
    injection heq with heq
    subst heq
    split
    · next inf hent =>
      rw [hent] at hst
      simp [SlabEntry.isAllocated] at hst
    · rfl

/-- `Push` on a slab that is not Allocated is rejected without mutation. -/
theorem Push_wrong_state {h : ZebraBlockHeap} {i : Nat}
    {info : CompactBlockInfo} (hidx : h.GetSlabIndex info.header = some i)
    (hst : (h.entryAt i).isAllocated = false) :
    h.Push info = (⟨false, .TRIM_NOT_REQUIRED⟩, h) := by
  unfold Push
  split
  · rfl
  · next j heq =>
    rw [hidx] at heq
    injection heq with heq
    subst heq
    split
    · next inf hent =>
      rw [hent] at hst
      simp [SlabEntry.isAllocated] at hst
    · rfl

/-- `Pop` leaves the ratio and size untouched and drops the queue head. -/
theorem Pop_state (h : ZebraBlockHeap) :
    (h.Pop).2.quarantine = h.quarantine.tail ∧
    (h.Pop).2.quarantine_ratio = h.quarantine_ratio ∧
    (h.Pop).2.heap_size = h.heap_size := by
  cases hq : h.quarantine with
  | nil =>
    rw [Pop_empty hq]
    exact ⟨hq, rfl, rfl⟩
  | cons i rest =>
    rw [Pop_spec hq]
    exact ⟨rfl, rfl, rfl⟩

/-- Inversion of a successful raw `Allocate`. -/
theorem Allocate_inv {h h1 : ZebraBlockHeap} {bytes p : Nat}
    (ha : h.Allocate bytes = (some p, h1)) :
    ∃ i rest, h.free_slabs = i :: rest ∧ bytes ≤ kMaximumAllocationSize ∧
      p = h.heap_address + i * kSlabSize + kPageSize - bytes ∧
      h1 = { h with free_slabs := rest,
                    slab_info := h.slab_info.set i
                      (.allocatedSlab ⟨p, p, bytes, bytes⟩) } := by
  by_cases hb : kMaximumAllocationSize < bytes
  · rw [show h.Allocate bytes = (none, h) from by
        unfold Allocate
        rw [if_pos hb]] at ha
    simp at ha
  · cases hfs : h.free_slabs with
    | nil =>
      rw [show h.Allocate bytes = (none, h) from by
          unfold Allocate
          rw [if_neg hb, hfs]] at ha
      simp at ha
    | cons i rest =>
      rw [Allocate_spec (Nat.le_of_not_lt hb) hfs] at ha
      simp only [Prod.mk.injEq, Option.some.injEq] at ha
      obtain ⟨hp, hh⟩ := ha
      subst hp
      exact ⟨i, rest, rfl, Nat.le_of_not_lt hb, rfl, hh.symm⟩

/-- Inversion of a successful `AllocateBlock`. -/
theorem AllocateBlock_inv {h h1 : ZebraBlockHeap} {size lmin rmin p : Nat}
    {info : CompactBlockInfo}
    (ha : h.AllocateBlock size lmin rmin = (some (p, info), h1)) :
    ∃ i rest, h.free_slabs = i :: rest ∧
      size ≤ kMaximumBlockAllocationSize ∧ lmin ≤ blockBodyOffset size ∧
      rmin ≤ kPageSize ∧
      p = h.heap_address + i * kSlabSize + blockBodyOffset size ∧
      info = ⟨h.heap_address + i * kSlabSize,
              h.heap_address + i * kSlabSize + blockBodyOffset size,
              size, kSlabSize⟩ ∧
      h1 = { h with free_slabs := rest,
                    slab_info := h.slab_info.set i (.allocatedSlab
                      ⟨h.heap_address + i * kSlabSize,
                       h.heap_address + i * kSlabSize + blockBodyOffset size,
                       size, kSlabSize⟩) } := by
  by_cases h1c : kMaximumBlockAllocationSize < size
  · rw [show h.AllocateBlock size lmin rmin = (none, h) from by
        unfold AllocateBlock
        rw [if_pos h1c]] at ha
    simp at ha
  · by_cases h2c : blockBodyOffset size < lmin
    · rw [show h.AllocateBlock size lmin rmin = (none, h) from by
          unfold AllocateBlock
          rw [if_neg h1c, if_pos h2c]] at ha
      simp at ha
    · by_cases h3c : kPageSize < rmin
      · rw [show h.AllocateBlock size lmin rmin = (none, h) from by
            unfold AllocateBlock
            rw [if_neg h1c, if_neg h2c, if_pos h3c]] at ha
        simp at ha
      · cases hfs : h.free_slabs with
        | nil =>
          rw [show h.AllocateBlock size lmin rmin = (none, h) from by
              unfold AllocateBlock
              rw [if_neg h1c, if_neg h2c, if_neg h3c, hfs]] at ha
          simp at ha
        | cons i rest =>
          rw [AllocateBlock_spec (Nat.le_of_not_lt h1c) (Nat.le_of_not_lt h2c)
              (Nat.le_of_not_lt h3c) hfs] at ha
          simp only [Prod.mk.injEq, Option.some.injEq] at ha
          obtain ⟨⟨hp, hinfo⟩, hh⟩ := ha
          subst hp
          exact ⟨i, rest, rfl, Nat.le_of_not_lt h1c, Nat.le_of_not_lt h2c,
                 Nat.le_of_not_lt h3c, rfl, hinfo.symm, hh.symm⟩

/-- A valid slab index from `GetSlabIndex` is below `slab_count`. -/
theorem GetSlabIndex_lt {h : ZebraBlockHeap} {addr j : Nat}
    (hsz : h.heap_size = h.slab_count * kSlabSize)
    (heq : h.GetSlabIndex addr = some j) : j < h.slab_count := by
  unfold GetSlabIndex at heq
  split at heq
  · next hc =>
    injection heq with heq
    subst heq
    obtain ⟨hc1, hc2⟩ := hc
    have h82 : kSlabSize = 8192 := by decide
    rw [h82] at hsz ⊢
    omega
  · cases heq

/-! ## Claim theorems -/

/-- C2: for every sequence of public operations (serialized by the heap
lock), the slab-state sets {Free}, {Allocated}, {Quarantined} are pairwise
disjoint and cover `[0, slab_count)`, the free queue contains exactly the
Free indices and the quarantine queue exactly the Quarantined indices,
both without duplicates. -/
theorem heap_partition_invariant (requested_size heap_address : Nat) (r : ℚ)
    (ops : List HeapOp) :
    let h := (initHeap requested_size heap_address r).runOps ops
    (h.free_slabs.Nodup ∧ h.quarantine.Nodup) ∧
    (∀ i : Nat, ¬(i ∈ h.free_slabs ∧ i ∈ h.quarantine)) ∧
    (∀ i : Nat, i ∈ h.free_slabs ↔ (i < h.slab_count ∧ h.entryAt i = .freeSlab)) ∧
    (∀ i : Nat, i ∈ h.quarantine ↔
       (i < h.slab_count ∧ (h.entryAt i).isQuarantined = true)) ∧
    (∀ i : Nat, i < h.slab_count →
       h.entryAt i = .freeSlab ∨ (∃ inf, h.entryAt i = .allocatedSlab inf) ∨
       (∃ inf, h.entryAt i = .quarantinedSlab inf)) := by
  intro h
  have hwf : WellFormed h := wf_runOps (wf_init requested_size heap_address r) ops
  refine ⟨⟨hwf.free_nodup, hwf.quar_nodup⟩, ?_, ?_, ?_, ?_⟩
  · rintro i ⟨hf, hq⟩
    have hent := entry_of_mem_quar hwf hq
    rw [entry_of_mem_free hwf hf] at hent
    simp [SlabEntry.isQuarantined] at hent
  · intro i
    constructor
    · intro hf
      exact ⟨hwf.free_lt i hf, entry_of_mem_free hwf hf⟩
    · rintro ⟨hlt, hent⟩
      exact (hwf.free_char i hlt).mpr hent
  · intro i
    constructor
    · intro hq
      exact ⟨hwf.quar_lt i hq, entry_of_mem_quar hwf hq⟩
    · rintro ⟨hlt, hent⟩
      exact (hwf.quar_char i hlt).mpr hent
  · intro i _
    cases hent : h.entryAt i with
    | freeSlab => exact Or.inl rfl
    | allocatedSlab inf => exact Or.inr (Or.inl ⟨inf, rfl⟩)
    | quarantinedSlab inf => exact Or.inr (Or.inr ⟨inf, rfl⟩)

/-- C3: if the ratio bound `slab_size * |Quarantined| ≤ ⌊r * heap_size⌋`
holds before a successful `Push`, it holds again after that `Push`
immediately followed by one `Pop`: a single Pop suffices. -/
theorem quarantine_ratio_bound_after_push_pop
    (h h1 : ZebraBlockHeap) (info : CompactBlockInfo) (res : PushResult)
    (hpush : h.Push info = (res, h1)) (hsucc : res.push_successful = true)
    (hinv : QuarantineInvariantIsSatisfied h) :
    QuarantineInvariantIsSatisfied ((h1.Pop).2) := by
  have hlen : ∀ (q : List Nat) (j : Nat), ((q ++ [j]).tail).length = q.length := by
    intro q j
    cases q <;> simp
  unfold Push at hpush
  split at hpush
  · cases hpush
    exact absurd hsucc (by simp)
  · split at hpush
    · split at hpush
      · cases hpush
        unfold QuarantineInvariantIsSatisfied
        rw [(Pop_state _).1, (Pop_state _).2.1, (Pop_state _).2.2]
        dsimp only
        rw [hlen]
        exact hinv
      · cases hpush
        exact absurd hsucc (by simp)
    · cases hpush
      exact absurd hsucc (by simp)

/-- C4: every successful `Push` carries SYNC_TRIM_REQUIRED; `Pop` on a
non-empty quarantine removes the FIFO head, transitions that slab to Free
(back of the free queue) and returns its descriptor with color GREEN;
`Pop` on an empty quarantine returns an empty result. -/
theorem push_pop_results (h : ZebraBlockHeap) (info : CompactBlockInfo)
    (i : Nat) (rest : List Nat) :
    ((h.Push info).1.push_successful = true →
       (h.Push info).1.trim_status = .SYNC_TRIM_REQUIRED) ∧
    (h.quarantine = i :: rest →
       (h.Pop).1 = some ((h.entryAt i).storedInfo, .GREEN) ∧
       (h.Pop).2.quarantine = rest ∧
       (h.Pop).2.entryAt i = .freeSlab ∧
       (h.Pop).2.free_slabs = h.free_slabs ++ [i]) ∧
    (h.quarantine = [] → h.Pop = (none, h)) := by
  refine ⟨?_, ?_, ?_⟩
  · intro hsucc
    have key : ∀ res : PushResult, ∀ h2 : ZebraBlockHeap,
        h.Push info = (res, h2) → res.push_successful = true →
        res.trim_status = .SYNC_TRIM_REQUIRED := by
      intro res h2 hp hs
      unfold Push at hp
      split at hp
      · cases hp
        exact absurd hs (by simp)
      · split at hp
        · split at hp
          · cases hp
            rfl
          · cases hp
            exact absurd hs (by simp)
        · cases hp
          exact absurd hs (by simp)
    exact key (h.Push info).1 (h.Push info).2 rfl hsucc
  · intro hq
    rw [Pop_spec hq]
    refine ⟨rfl, rfl, ?_, rfl⟩
    show (h.slab_info.set i .freeSlab).getD i .freeSlab = .freeSlab
    rw [getD_set_free]
    simp
  · intro hq
    exact Pop_empty hq

/-- C1 (amended): for raw `Allocate` the buffer end abuts the guard page
exactly: `p + bytes = address_of(i) + page_size` for the serving slab `i`.
For `AllocateBlock` the shadow-aligned body ends within `shadow_ratio`
bytes of the guard page: `p + b + (page_size - b) % shadow_ratio =
address_of(i) + page_size`, with equality `p + b = address_of(i) +
page_size` exactly when `b` is a multiple of the shadow ratio; the gap is
covered by trailer padding. -/
theorem allocation_end_abuts_guard (h h1 h2 : ZebraBlockHeap)
    (bytes size lmin rmin p q : Nat) (info : CompactBlockInfo) :
    (h.Allocate bytes = (some p, h1) →
       ∃ i rest, h.free_slabs = i :: rest ∧
         p + bytes = h.heap_address + i * kSlabSize + kPageSize) ∧
    (h.AllocateBlock size lmin rmin = (some (q, info), h2) →
       ∃ i rest, h.free_slabs = i :: rest ∧
         q + size + (kPageSize - size) % kShadowRatio =
           h.heap_address + i * kSlabSize + kPageSize ∧
         (kPageSize - size) % kShadowRatio < kShadowRatio ∧
         (size % kShadowRatio = 0 →
            q + size = h.heap_address + i * kSlabSize + kPageSize)) := by
  constructor
  · intro ha
    obtain ⟨i, rest, hfs, hb, hp, _⟩ := Allocate_inv ha
    refine ⟨i, rest, hfs, ?_⟩
    subst hp
    have hmax : kMaximumAllocationSize = kPageSize := rfl
    omega
  · intro ha
    obtain ⟨i, rest, hfs, hsz, _, _, hp, _, _⟩ := AllocateBlock_inv ha
    refine ⟨i, rest, hfs, ?_, ?_, ?_⟩ <;> subst hp
    · have hbo : blockBodyOffset size = 8 * ((4096 - size) / 8) := rfl
      have hmax : kMaximumBlockAllocationSize = 4080 := by decide
      have h8 : kShadowRatio = 8 := rfl
      have h4096 : kPageSize = 4096 := rfl
      rw [hbo, h8, h4096]
      omega
    · exact Nat.mod_lt _ (by decide)
    · intro hdvd
      have hbo : blockBodyOffset size = 8 * ((4096 - size) / 8) := rfl
      have hmax : kMaximumBlockAllocationSize = 4080 := by decide
      have h8 : kShadowRatio = 8 := rfl
      have h4096 : kPageSize = 4096 := rfl
      rw [h8] at hdvd
      rw [hbo, h4096]
      omega

/-- C5: a successful `AllocateBlock` followed immediately by `FreeBlock` on
the returned descriptor succeeds and restores the heap state exactly,
except that the chosen slab has moved from the front to the back of the
free queue. -/
theorem allocate_free_roundtrip (h h1 : ZebraBlockHeap)
    (size lmin rmin p : Nat) (info : CompactBlockInfo)
    (hwf : WellFormed h)
    (halloc : h.AllocateBlock size lmin rmin = (some (p, info), h1)) :
    h1.FreeBlock info =
      (true, { h with free_slabs := h.free_slabs.tail ++ h.free_slabs.take 1 }) := by
  obtain ⟨i, rest, hfs, _, _, _, hp, hinfo, hh1⟩ := AllocateBlock_inv halloc
  subst hh1
  subst hinfo
  have hisc : i < h.slab_count :=
    hwf.free_lt i (by rw [hfs]; exact List.mem_cons_self i rest)
  have hilen : i < h.slab_info.length := by
    rw [hwf.info_len]
    exact hisc
  have h82 : kSlabSize = 8192 := by decide
  have hsz8 : h.heap_size = h.slab_count * 8192 := by
    rw [hwf.size_eq, h82]
  have hidx : ZebraBlockHeap.GetSlabIndex
      { h with free_slabs := rest,
               slab_info := h.slab_info.set i (.allocatedSlab
                 ⟨h.heap_address + i * kSlabSize,
                  h.heap_address + i * kSlabSize + blockBodyOffset size,
                  size, kSlabSize⟩) }
      (h.heap_address + i * kSlabSize) = some i := by
    unfold GetSlabIndex
    rw [if_pos]
    · have hv : (h.heap_address + i * kSlabSize - h.heap_address) / kSlabSize = i := by
        rw [h82]
        omega
      rw [hv]
    · constructor
      · show h.heap_address ≤ h.heap_address + i * kSlabSize
        exact Nat.le_add_right _ _
      · show h.heap_address + i * kSlabSize < h.heap_address + h.heap_size
        rw [h82, hsz8]
        have : (i + 1) * 8192 ≤ h.slab_count * 8192 := Nat.mul_le_mul_right _ hisc
        omega
  have hent : ZebraBlockHeap.entryAt
      { h with free_slabs := rest,
               slab_info := h.slab_info.set i (.allocatedSlab
                 ⟨h.heap_address + i * kSlabSize,
                  h.heap_address + i * kSlabSize + blockBodyOffset size,
                  size, kSlabSize⟩) } i =
      .allocatedSlab ⟨h.heap_address + i * kSlabSize,
                      h.heap_address + i * kSlabSize + blockBodyOffset size,
                      size, kSlabSize⟩ := by
    show (h.slab_info.set i _).getD i .freeSlab = _
    rw [getD_set_eq_ite _ _ _ _ _ hilen, if_pos rfl]
  rw [FreeBlock_spec hidx hent]
  dsimp only
  rw [List.set_set]
  have hfree : h.slab_info.getD i .freeSlab = .freeSlab :=
    entry_of_mem_free hwf (by rw [hfs]; exact List.mem_cons_self i rest)
  rw [show h.slab_info.set i SlabEntry.freeSlab = h.slab_info from by
        rw [← hfree]
        exact set_getD_self _ _ _ hilen]
  rw [hfs]
  rfl

/-- C6: `FreeBlock` and `Push` on a slab that is not in state Allocated
fail (false / Rejected), and `Free`, `FreeBlock`, `Push` on an address
outside `[heap_base, heap_base + heap_size)` fail; in every case the whole
heap state is left unchanged. -/
theorem invalid_transitions_rejected (h : ZebraBlockHeap)
    (info : CompactBlockInfo) (alloc i : Nat) :
    (h.GetSlabIndex info.header = some i →
       (h.entryAt i).isAllocated = false →
       h.FreeBlock info = (false, h) ∧
       h.Push info = (⟨false, .TRIM_NOT_REQUIRED⟩, h)) ∧
    ((alloc < h.heap_address ∨ h.heap_address + h.heap_size ≤ alloc) →
       h.Free alloc = (false, h)) ∧
    ((info.header < h.heap_address ∨ h.heap_address + h.heap_size ≤ info.header) →
       h.FreeBlock info = (false, h) ∧
       h.Push info = (⟨false, .TRIM_NOT_REQUIRED⟩, h)) := by
  refine ⟨?_, ?_, ?_⟩
  · intro hidx hst
    exact ⟨FreeBlock_wrong_state hidx hst, Push_wrong_state hidx hst⟩
  · intro hout
    exact Free_invalid (GetSlabIndex_eq_none hout)
  · intro hout
    exact ⟨FreeBlock_invalid (GetSlabIndex_eq_none hout),
           Push_invalid (GetSlabIndex_eq_none hout)⟩

/-- C7: the body pointer returned by a successful `AllocateBlock` is
shadow-ratio aligned: `p % shadow_ratio = 0` (the heap base is
page-aligned, spec.md §3). -/
theorem body_pointer_shadow_aligned (h h1 : ZebraBlockHeap)
    (size lmin rmin p : Nat) (info : CompactBlockInfo)
    (hbase : h.heap_address % kPageSize = 0)
    (halloc : h.AllocateBlock size lmin rmin = (some (p, info), h1)) :
    p % kShadowRatio = 0 := by
  obtain ⟨i, rest, hfs, hsz, _, _, hp, _, _⟩ := AllocateBlock_inv halloc
  subst hp
  have hbo : blockBodyOffset size = 8 * ((4096 - size) / 8) := rfl
  have h8 : kShadowRatio = 8 := rfl
  have h82 : kSlabSize = 8192 := by decide
  have h4096 : kPageSize = 4096 := rfl
  rw [h4096] at hbase
  rw [hbo, h8, h82]
  omega

/-- C8: a raw request with `bytes > page_size` and a block request with
`size > max_block_allocation_size` fail, returning the failure before any
heap state is mutated. -/
theorem oversize_requests_rejected (h : ZebraBlockHeap)
    (bytes size lmin rmin : Nat) :
    (kPageSize < bytes → h.Allocate bytes = (none, h)) ∧
    (kMaximumBlockAllocationSize < size →
       h.AllocateBlock size lmin rmin = (none, h)) := by
  constructor
  · intro hb
    unfold Allocate
    rw [if_pos (show kMaximumAllocationSize < bytes from hb)]
  · intro hs
    unfold AllocateBlock
    rw [if_pos hs]

/-- C9: `IsAllocated addr` is true iff `addr` is the exact recorded header
address of a slab currently in state Allocated; in particular it is false
for any address outside the reservation (and for any non-header interior
pointer, since only the exact header matches). -/
theorem isAllocated_iff_exact_header (h : ZebraBlockHeap) (addr : Nat)
    (hwf : WellFormed h) :
    (h.IsAllocated addr = true ↔
       ∃ i, i < h.slab_count ∧ ∃ inf : CompactBlockInfo,
         h.entryAt i = .allocatedSlab inf ∧ inf.header = addr) ∧
    ((addr < h.heap_address ∨ h.heap_address + h.heap_size ≤ addr) →
       h.IsAllocated addr = false) := by
  constructor
  · constructor
    · intro htrue
      unfold IsAllocated at htrue
      split at htrue
      · cases htrue
      · next j heq =>
        split at htrue
        · next inf hent =>
          exact ⟨j, GetSlabIndex_lt hwf.size_eq heq, inf, hent, by
            simpa using htrue⟩
        · cases htrue
    · rintro ⟨i, hlt, inf, hent, hhdr⟩
      have hbounds := (headerOk_iff h i).mp (hwf.header_ok i hlt) inf (Or.inl hent)
      rw [hhdr] at hbounds
      have h82 : kSlabSize = 8192 := by decide
      have hsz8 : h.heap_size = h.slab_count * 8192 := by
        rw [hwf.size_eq, h82]
      rw [h82] at hbounds
      have hidx : h.GetSlabIndex addr = some i := by
        unfold GetSlabIndex
        rw [if_pos (⟨by omega, by
          have : (i + 1) * 8192 ≤ h.slab_count * 8192 := Nat.mul_le_mul_right _ hlt
          omega⟩ : _ ∧ _)]
        have hv : (addr - h.heap_address) / kSlabSize = i := by
          rw [h82]
          omega
        rw [hv]
      unfold IsAllocated
      split
      · next heq =>
        rw [hidx] at heq
        cases heq
      · next j heq =>
        rw [hidx] at heq
        injection heq with heq
        subst heq
        split
        · next inf2 hent2 =>
          rw [hent] at hent2
          injection hent2 with hent2
          subst hent2
          simpa using hhdr
        · next hne =>
          exact absurd hent (by intro hc; exact hne inf hc)
  · intro hout
    unfold IsAllocated
    rw [GetSlabIndex_eq_none hout]

/-- C10: `GetSlabAddress` yields `heap_base + i * slab_size` for a valid
index and NULL for an invalid one; `GetSlabIndex` yields the invalid
sentinel for any out-of-reservation address; and neither conversion ever
produces a location outside the reserved region. -/
theorem slab_conversions_stay_in_range (h : ZebraBlockHeap) (i addr : Nat)
    (hsz : h.heap_size = h.slab_count * kSlabSize) :
    (i < h.slab_count →
       h.GetSlabAddress i = some (h.heap_address + i * kSlabSize)) ∧
    (h.slab_count ≤ i → h.GetSlabAddress i = none) ∧
    ((addr < h.heap_address ∨ h.heap_address + h.heap_size ≤ addr) →
       h.GetSlabIndex addr = none) ∧
    (∀ a, h.GetSlabAddress i = some a →
       h.heap_address ≤ a ∧ a < h.heap_address + h.heap_size) ∧
    (∀ j, h.GetSlabIndex addr = some j → j < h.slab_count) := by
  refine ⟨?_, ?_, ?_, ?_, ?_⟩
  · intro hlt
    unfold GetSlabAddress
    rw [if_pos hlt]
  · intro hge
    unfold GetSlabAddress
    rw [if_neg (Nat.not_lt.mpr hge)]
  · exact fun hout => GetSlabIndex_eq_none hout
  · intro a ha
    unfold GetSlabAddress at ha
    split at ha
    · next hlt =>
      injection ha with ha
      subst ha
      constructor
      · exact Nat.le_add_right _ _
      · have h82 : kSlabSize = 8192 := by decide
        rw [h82, hsz, h82]
        have : (i + 1) * 8192 ≤ h.slab_count * 8192 := Nat.mul_le_mul_right _ hlt
        omega
    · cases ha
  · exact fun j hj => GetSlabIndex_lt hsz hj

/-! ## Concrete scenario (spec.md §8) and witnesses -/

/-- The end-to-end scenario heap of spec.md §8: 8 slabs (65536 bytes),
page-aligned base 0, quarantine ratio 1/4. -/
def scenarioHeap : ZebraBlockHeap := initHeap 65536 0 (1/4)

/-- `scenarioHeap` after a raw 16-byte allocation: slab 0 served, the
buffer at 4080 abuts the guard page at 4096. -/
def scenarioHeapA : ZebraBlockHeap := (scenarioHeap.Allocate 16).2

/-- The descriptor recorded for the raw 16-byte allocation in slab 0. -/
def scenarioInfo : CompactBlockInfo := ⟨4080, 4080, 16, 16⟩

/-- `scenarioHeapA` after quarantining slab 0. -/
def scenarioHeapQ : ZebraBlockHeap := (scenarioHeapA.Push scenarioInfo).2

/-- `scenarioHeap` after `AllocateBlock(100, 8, 8)`: slab 0 served, body
at 3992. -/
def scenarioHeapB : ZebraBlockHeap := (scenarioHeap.AllocateBlock 100 8 8).2

/-- The descriptor recorded for the 100-byte block allocation in slab 0. -/
def scenarioBlockInfo : CompactBlockInfo := ⟨0, 3992, 100, 8192⟩

/-- C1 counterexample: on the spec.md §8 scenario heap,
`AllocateBlock(100, 8, 8)` succeeds serving slab 0, but the returned body
ends at 3992 + 100 = 4092, not at the guard-page start
`address_of(0) + page_size = 4096`: `(p + b) mod page_size = 4092 ≠ 0`.
The claimed exact abutment fails for the block path whenever the body size
is not a multiple of the shadow ratio. -/
theorem allocation_end_counterexample :
    (scenarioHeap.AllocateBlock 100 8 8).1.map (fun a => a.1 + 100) = some 4092 ∧
    scenarioHeap.free_slabs.head? = some 0 ∧
    scenarioHeap.heap_address + 0 * kSlabSize + kPageSize = 4096 ∧
    (4092 : Nat) % kPageSize ≠ 0 := by
  refine ⟨?_, ?_, ?_, ?_⟩ <;> decide

section Witnesses

attribute [local semireducible] Rat.mul Rat.inv

/-- The scenario heap is well formed. -/
theorem scenarioHeap_wf : WellFormed scenarioHeap :=
  wf_init 65536 0 (1/4)

/-- The scenario heap after the raw allocation is well formed. -/
theorem scenarioHeapA_wf : WellFormed scenarioHeapA :=
  wf_step (wf_init 65536 0 (1/4)) (.allocate 16)

/-- C1 witness at the scenario heap: the raw 16-byte buffer ends exactly
at the guard page; the 100-byte block body ends 4 bytes short of it. -/
theorem allocation_end_abuts_guard_witness :
    (∃ i rest, scenarioHeap.free_slabs = i :: rest ∧
       4080 + 16 = scenarioHeap.heap_address + i * kSlabSize + kPageSize) ∧
    (∃ i rest, scenarioHeap.free_slabs = i :: rest ∧
       3992 + 100 + (kPageSize - 100) % kShadowRatio =
         scenarioHeap.heap_address + i * kSlabSize + kPageSize ∧
       (kPageSize - 100) % kShadowRatio < kShadowRatio ∧
       (100 % kShadowRatio = 0 →
          3992 + 100 = scenarioHeap.heap_address + i * kSlabSize + kPageSize)) := by
  constructor
  · exact (allocation_end_abuts_guard scenarioHeap scenarioHeapA scenarioHeapB
      16 100 8 8 4080 3992 scenarioBlockInfo).1 rfl
  · exact (allocation_end_abuts_guard scenarioHeap scenarioHeapA scenarioHeapB
      16 100 8 8 4080 3992 scenarioBlockInfo).2 rfl

/-- C2 witness: the partition and queue-exactness facts at a concrete run
(allocate slab 0, then quarantine it). -/
theorem heap_partition_invariant_witness :
    let h := (initHeap 65536 0 (1/4)).runOps
      [HeapOp.allocate 16, HeapOp.push scenarioInfo]
    (h.free_slabs.Nodup ∧ h.quarantine.Nodup) ∧
    (∀ i : Nat, ¬(i ∈ h.free_slabs ∧ i ∈ h.quarantine)) ∧
    (∀ i : Nat, i ∈ h.free_slabs ↔ (i < h.slab_count ∧ h.entryAt i = .freeSlab)) ∧
    (∀ i : Nat, i ∈ h.quarantine ↔
       (i < h.slab_count ∧ (h.entryAt i).isQuarantined = true)) ∧
    (∀ i : Nat, i < h.slab_count →
       h.entryAt i = .freeSlab ∨ (∃ inf, h.entryAt i = .allocatedSlab inf) ∨
       (∃ inf, h.entryAt i = .quarantinedSlab inf)) :=
  heap_partition_invariant 65536 0 (1/4)
    [HeapOp.allocate 16, HeapOp.push scenarioInfo]

/-- C3 witness: the bound holds after Push then Pop on the scenario heap. -/
theorem quarantine_ratio_bound_witness :
    QuarantineInvariantIsSatisfied ((scenarioHeapQ).Pop).2 :=
  quarantine_ratio_bound_after_push_pop scenarioHeapA scenarioHeapQ scenarioInfo
    (scenarioHeapA.Push scenarioInfo).1 rfl (by decide) (by decide)

/-- C4 witness: concrete push/pop results on the scenario heap. -/
theorem push_pop_results_witness :
    ((scenarioHeapA.Push scenarioInfo).1.trim_status = .SYNC_TRIM_REQUIRED) ∧
    ((scenarioHeapQ.Pop).1 = some ((scenarioHeapQ.entryAt 0).storedInfo, .GREEN) ∧
     (scenarioHeapQ.Pop).2.quarantine = [] ∧
     (scenarioHeapQ.Pop).2.entryAt 0 = .freeSlab ∧
     (scenarioHeapQ.Pop).2.free_slabs = scenarioHeapQ.free_slabs ++ [0]) ∧
    scenarioHeap.Pop = (none, scenarioHeap) := by
  refine ⟨?_, ?_, ?_⟩
  · exact (push_pop_results scenarioHeapA scenarioInfo 0 []).1 (by decide)
  · exact (push_pop_results scenarioHeapQ scenarioInfo 0 []).2.1 (by decide)
  · exact (push_pop_results scenarioHeap scenarioInfo 0 []).2.2 (by decide)

/-- C5 witness: the concrete round trip restores the scenario heap with
slab 0 rotated to the back of the free queue. -/
theorem allocate_free_roundtrip_witness :
    scenarioHeapB.FreeBlock scenarioBlockInfo =
      (true, { scenarioHeap with
                 free_slabs := scenarioHeap.free_slabs.tail ++
                   scenarioHeap.free_slabs.take 1 }) :=
  allocate_free_roundtrip scenarioHeap scenarioHeapB 100 8 8 3992
    scenarioBlockInfo scenarioHeap_wf rfl

/-- C6 witness: rejected transitions on the scenario heap. -/
theorem invalid_transitions_witness :
    (scenarioHeap.FreeBlock ⟨0, 0, 16, 16⟩ = (false, scenarioHeap) ∧
     scenarioHeap.Push ⟨0, 0, 16, 16⟩ =
       (⟨false, .TRIM_NOT_REQUIRED⟩, scenarioHeap)) ∧
    scenarioHeap.Free 999999 = (false, scenarioHeap) ∧
    (scenarioHeap.FreeBlock ⟨999999, 999999, 16, 16⟩ = (false, scenarioHeap) ∧
     scenarioHeap.Push ⟨999999, 999999, 16, 16⟩ =
       (⟨false, .TRIM_NOT_REQUIRED⟩, scenarioHeap)) := by
  refine ⟨?_, ?_, ?_⟩
  · exact (invalid_transitions_rejected scenarioHeap ⟨0, 0, 16, 16⟩ 999999 0).1
      (by decide) (by decide)
  · exact (invalid_transitions_rejected scenarioHeap ⟨0, 0, 16, 16⟩ 999999 0).2.1
      (by decide)
  · exact (invalid_transitions_rejected scenarioHeap
      ⟨999999, 999999, 16, 16⟩ 999999 0).2.2 (by decide)

/-- C7 witness: the concrete block body pointer 3992 is 8-aligned. -/
theorem body_pointer_shadow_aligned_witness : (3992 : Nat) % kShadowRatio = 0 :=
  body_pointer_shadow_aligned scenarioHeap scenarioHeapB 100 8 8 3992
    scenarioBlockInfo (by decide) rfl

/-- C8 witness: oversize requests fail on the scenario heap unchanged. -/
theorem oversize_requests_rejected_witness :
    scenarioHeap.Allocate 4097 = (none, scenarioHeap) ∧
    scenarioHeap.AllocateBlock 4081 8 8 = (none, scenarioHeap) := by
  constructor
  · exact (oversize_requests_rejected scenarioHeap 4097 4081 8 8).1 (by decide)
  · exact (oversize_requests_rejected scenarioHeap 4097 4081 8 8).2 (by decide)

/-- C9 witness: `IsAllocated` at the exact header 4080 of the live slab 0
and at an out-of-range address. -/
theorem isAllocated_iff_exact_header_witness :
    (scenarioHeapA.IsAllocated 4080 = true ↔
       ∃ i, i < scenarioHeapA.slab_count ∧ ∃ inf : CompactBlockInfo,
         scenarioHeapA.entryAt i = .allocatedSlab inf ∧ inf.header = 4080) ∧
    scenarioHeapA.IsAllocated 999999 = false := by
  constructor
  · exact (isAllocated_iff_exact_header scenarioHeapA 4080 scenarioHeapA_wf).1
  · exact (isAllocated_iff_exact_header scenarioHeapA 999999 scenarioHeapA_wf).2
      (by decide)

/-- C10 witness: concrete conversions on the scenario heap stay in range. -/
theorem slab_conversions_witness :
    scenarioHeap.GetSlabAddress 3 =
      some (scenarioHeap.heap_address + 3 * kSlabSize) ∧
    scenarioHeap.GetSlabAddress 9 = none ∧
    scenarioHeap.GetSlabIndex 999999 = none ∧
    (scenarioHeap.heap_address ≤ 24576 ∧
     24576 < scenarioHeap.heap_address + scenarioHeap.heap_size) ∧
    (0 : Nat) < scenarioHeap.slab_count := by
  refine ⟨?_, ?_, ?_, ?_, ?_⟩
  · exact (slab_conversions_stay_in_range scenarioHeap 3 999999 (by decide)).1
      (by decide)
  · exact (slab_conversions_stay_in_range scenarioHeap 9 999999 (by decide)).2.1
      (by decide)
  · exact (slab_conversions_stay_in_range scenarioHeap 3 999999 (by decide)).2.2.1
      (by decide)
  · exact (slab_conversions_stay_in_range scenarioHeap 3 999999 (by decide)).2.2.2.1
      24576 (by decide)
  · exact (slab_conversions_stay_in_range scenarioHeap 3 0 (by decide)).2.2.2.2
      0 (by decide)

end Witnesses

end ZebraBlockHeap

end Syzygy
